import Mathlib

/-!
Verification of the AbleRefusal job-queue / inference-bridge / supervisor core.

The Go sources are shallowly embedded:
* `internal/queue/manager.go` (QueueManager) — pending list, status table,
  cancel channels and the bounded dispatch channel become explicit fields of
  `QMState`; every method of the manager becomes a pure state-transition
  function.  `time.Now()` stamps are modelled by passing an explicit `now : Nat`
  clock value to the operations that read the clock.  Go `float64` progress
  values are modelled as exact rationals (`ℚ`); every property proved here
  (values being set to `0`/`100`, monotonicity of `step/steps*100`) is
  insensitive to float rounding.
* `internal/inference/onnx_engine.go` — the placeholder image generator
  (`createMockImage`) with its prompt hash (Go 64-bit `int` overflow is
  modelled by tracking the two's-complement bit pattern as a `Nat` modulo
  `2^64`, which gives exactly the bytes the source extracts).
* `internal/inference/python_engine.go` — the submit-phase routing of
  `Generate`, the mock fallback progress trace, and the optional encryption
  layer (`encryptIfNeeded`/`decryptIfNeeded`).  The AES block cipher and the
  random IV come from the Go standard library, outside this repository; the
  block cipher is therefore a parameter `E` (only assumed to produce 16-byte
  blocks), and the IV is an explicit argument, so "fresh random IV per call"
  becomes "the two calls use distinct IVs".  CFB mode and the base64 transport
  encoding are embedded concretely.
* `internal/inference/python_service.go` (PythonServiceManager) — `Start`,
  `Stop`, `IsRunning`, with the health endpoint modelled as an oracle
  `Nat → Bool` giving the result of the i-th probe (probe 0 is the initial
  `isHealthy` check in `Start`; probes 1.. are the 500 ms ticker probes).
-/

/-! ## Data model (`internal/models/generation.go`) -/

/-- `models.GenerationStatusType`: the five job lifecycle states. -/
inductive GenerationStatusType where
  | queued
  | processing
  | completed
  | failed
  | cancelled
deriving DecidableEq, Repr

/-- `models.GenerationRequest` (immutable job input).  `CFGScale` is a Go
`float64`, modelled as `ℚ`; `CreatedAt`/`UpdatedAt` are clock stamps. -/
structure GenerationRequest where
  id : String
  prompt : String
  negPrompt : String
  model : String
  width : Nat
  height : Nat
  steps : Nat
  cfgScale : ℚ
  seed : Int
  batchSize : Nat
  sampler : String
  createdAt : Nat
  updatedAt : Nat
deriving DecidableEq, Repr

/-- `models.GenerationResult`: one produced image. -/
structure GenerationResult where
  imagePath : String
  imageURL : String
  seed : Int
  width : Nat
  height : Nat
  metadata : List (String × String)
deriving DecidableEq, Repr

/-- `models.GenerationStatus`: the mutable per-job status record.  The Go
zero values of the fields not set at creation are: `CurrentStep = 0`,
`Results = nil`, `Error = ""`, `StartedAt = nil`, `CompletedAt = nil`. -/
structure GenerationStatus where
  id : String
  status : GenerationStatusType
  progress : ℚ
  currentStep : Nat
  totalSteps : Nat
  results : List GenerationResult
  error : String
  startedAt : Option Nat
  completedAt : Option Nat
deriving DecidableEq, Repr

/-- `models.QueueItem`: request plus its recorded 1-based position.  (In Go the
item also holds a pointer to the status record; the embedding keeps status
records solely in the manager's status table, keyed by job id.) -/
structure QueueItem where
  request : GenerationRequest
  position : Nat
deriving DecidableEq, Repr

/-- Queue errors (`models.ErrQueueFull`, `models.ErrGenerationNotFound`). -/
inductive QueueError where
  | queueFull
  | generationNotFound
deriving DecidableEq, Repr

/-! ## The queue manager state (`internal/queue/manager.go`)

`statuses` is the Go `map[string]*models.GenerationStatus`, embedded as an
association list with unique keys maintained by `mapSet`.  `cancelChans` is
the key set of `map[string]chan struct{}`.  `processingChan` is the content
of the buffered dispatch channel `chan *models.GenerationRequest`, whose
capacity is `config.MaxQueueSize` (see `NewManager`). -/

/-- Go map read `m.statuses[id]`. -/
def mapGet (xs : List (String × GenerationStatus)) (k : String) :
    Option GenerationStatus :=
  match xs with
  | [] => none
  | (k1, v1) :: rest => if k1 = k then some v1 else mapGet rest k

/-- Go map write `m.statuses[id] = v` (replace an existing binding, else add). -/
def mapSet (xs : List (String × GenerationStatus)) (k : String)
    (v : GenerationStatus) : List (String × GenerationStatus) :=
  match xs with
  | [] => [(k, v)]
  | (k1, v1) :: rest =>
      if k1 = k then (k, v) :: rest else (k1, v1) :: mapSet rest k v

/-- Go `delete(m.cancelChans, id)` on the key set. -/
def eraseKey (xs : List String) (k : String) : List String :=
  match xs with
  | [] => []
  | k1 :: rest => if k1 = k then rest else k1 :: eraseKey rest k

/-- The loop in `Cancel`/`removeFromQueue`: remove the first queue item whose
request id matches, then `break`. -/
def removeFirstById (q : List QueueItem) (id : String) : List QueueItem :=
  match q with
  | [] => []
  | it :: rest =>
      if it.request.id = id then rest else it :: removeFirstById rest id

/-- The renumbering loop at the end of `removeFromQueue`:
`for i, item := range m.queue { item.Position = i + 1 }`. -/
def renumberFrom (n : Nat) (q : List QueueItem) : List QueueItem :=
  match q with
  | [] => []
  | it :: rest => { it with position := n } :: renumberFrom (n + 1) rest

/-- `QueueManager`'s mutable state. -/
structure QMState where
  queue : List QueueItem
  statuses : List (String × GenerationStatus)
  cancelChans : List String
  processingChan : List GenerationRequest
  maxQueueSize : Nat
deriving DecidableEq, Repr

/-- The status record created by `Enqueue`. -/
def initialStatus (req : GenerationRequest) : GenerationStatus :=
  { id := req.id
    status := GenerationStatusType.queued
    progress := 0
    currentStep := 0
    totalSteps := req.steps
    results := []
    error := ""
    startedAt := none
    completedAt := none }

/-- `QueueManager.Enqueue`.  Rejects with `ErrQueueFull` when
`len(m.queue) >= m.config.MaxQueueSize`; otherwise appends the queue item at
position `len(m.queue)+1`, creates the status record and the cancel channel,
and performs the non-blocking `select` send on the dispatch channel (the
`default` branch silently drops the publish when the channel is full). -/
def Enqueue (m : QMState) (req : GenerationRequest) :
    QMState × Except QueueError Nat :=
  if m.maxQueueSize ≤ m.queue.length then
    (m, Except.error QueueError.queueFull)
  else
    ({ queue := m.queue ++ [{ request := req, position := m.queue.length + 1 }]
       statuses := mapSet m.statuses req.id (initialStatus req)
       cancelChans := m.cancelChans ++ [req.id]
       processingChan :=
         if m.processingChan.length < m.maxQueueSize then
           m.processingChan ++ [req]
         else
           m.processingChan
       maxQueueSize := m.maxQueueSize },
     Except.ok (m.queue.length + 1))

/-- `QueueManager.Cancel`.  Unknown id: `ErrGenerationNotFound`.  Otherwise it
unconditionally sets the status to `cancelled`, stamps the completion time,
closes and deletes the cancel channel, and removes the first matching pending
entry — without renumbering the remaining positions. -/
def Cancel (m : QMState) (id : String) (now : Nat) :
    QMState × Option QueueError :=
  match mapGet m.statuses id with
  | none => (m, some QueueError.generationNotFound)
  | some st =>
      let st1 := { st with status := GenerationStatusType.cancelled
                           completedAt := some now }
      ({ m with
         statuses := mapSet m.statuses id st1
         cancelChans := eraseKey m.cancelChans id
         queue := removeFirstById m.queue id },
       none)

/-- `QueueManager.GetStatus`: pure read of the status table. -/
def GetStatus (m : QMState) (id : String) :
    Except QueueError GenerationStatus :=
  match mapGet m.statuses id with
  | none => Except.error QueueError.generationNotFound
  | some st => Except.ok st

/-- `QueueManager.GetQueue`: defensive copy of the pending list. -/
def GetQueue (m : QMState) : List QueueItem :=
  m.queue

/-- `QueueManager.updateStatus`: unconditional status/progress write, stamping
`StartedAt` on the first transition to `processing`, and `CompletedAt` on any
write of a terminal status value. -/
def updateStatus (m : QMState) (id : String) (status : GenerationStatusType)
    (progress : ℚ) (now : Nat) : QMState :=
  match mapGet m.statuses id with
  | none => m
  | some st =>
      let st1 := { st with status := status, progress := progress }
      let st2 :=
        if status = GenerationStatusType.processing ∧ st1.startedAt = none then
          { st1 with startedAt := some now }
        else st1
      let st3 :=
        if status = GenerationStatusType.completed ∨
            status = GenerationStatusType.failed ∨
            status = GenerationStatusType.cancelled then
          { st2 with completedAt := some now }
        else st2
      { m with statuses := mapSet m.statuses id st3 }

/-- `QueueManager.updateProgress`: writes progress and current step. -/
def updateProgress (m : QMState) (id : String) (progress : ℚ) (step : Nat) :
    QMState :=
  match mapGet m.statuses id with
  | none => m
  | some st =>
      let st1 := { st with progress := progress, currentStep := step }
      { m with statuses := mapSet m.statuses id st1 }

/-- `QueueManager.updateStatusWithError`: unconditionally writes the given
status and error message and stamps the completion time. -/
def updateStatusWithError (m : QMState) (id : String)
    (status : GenerationStatusType) (errorMsg : String) (now : Nat) : QMState :=
  match mapGet m.statuses id with
  | none => m
  | some st =>
      let st1 := { st with status := status, error := errorMsg,
                           completedAt := some now }
      { m with statuses := mapSet m.statuses id st1 }

/-- `QueueManager.updateStatusWithResults`: unconditionally writes the given
status, forces progress to 100, attaches the results and stamps the
completion time. -/
def updateStatusWithResults (m : QMState) (id : String)
    (status : GenerationStatusType) (results : List GenerationResult)
    (now : Nat) : QMState :=
  match mapGet m.statuses id with
  | none => m
  | some st =>
      let st1 := { st with status := status, progress := 100,
                           results := results, completedAt := some now }
      { m with statuses := mapSet m.statuses id st1 }

/-- `QueueManager.removeFromQueue`: remove the first matching entry, then
renumber all remaining positions to `1, 2, ...`. -/
def removeFromQueue (m : QMState) (id : String) : QMState :=
  { m with queue := renumberFrom 1 (removeFirstById m.queue id) }

/-- Folding `Enqueue` over a list of requests, collecting each returned
position (used to state the position-sequence property). -/
def enqueueAll (m : QMState) (reqs : List GenerationRequest) :
    QMState × List (Except QueueError Nat) :=
  match reqs with
  | [] => (m, [])
  | r :: rs =>
      let step := Enqueue m r
      let rest := enqueueAll step.1 rs
      (rest.1, step.2 :: rest.2)

/-! ## Mock generation progress trace

`PythonEngine.mockGenerate` / `ONNXEngine.mockGenerate` both run
`for i := 0; i < req.BatchSize; i++ { for step := 1; step <= req.Steps; step++
{ progressCallback(float64(step)/float64(req.Steps)*100, step) } }`.
The progress values passed to the callback, in order, are the list below
(the inner trace is independent of the batch index `i`, so the whole trace is
`batchSize` copies of the per-image trace). -/
def mockProgressTrace (batchSize steps : Nat) : List ℚ :=
  List.flatten (List.replicate batchSize
    ((List.range steps).map
      (fun s : Nat => (((s : ℚ) + 1) / (steps : ℚ)) * 100)))

/-! ## Helper lemmas -/

theorem mapGet_mapSet_self (xs : List (String × GenerationStatus)) (k : String)
    (v : GenerationStatus) : mapGet (mapSet xs k v) k = some v := by
  induction xs with
  | nil => simp [mapSet, mapGet]
  | cons p rest ih =>
      obtain ⟨k1, v1⟩ := p
      by_cases h : k1 = k
      · simp [mapSet, mapGet, h]
      · simp [mapSet, mapGet, h, ih]

theorem mem_removeFirstById (q : List QueueItem) (id : String) (it : QueueItem)
    (h : it ∈ removeFirstById q id) : it ∈ q := by
  induction q with
  | nil => simp [removeFirstById] at h
  | cons x rest ih =>
      by_cases hx : x.request.id = id
      · simp only [removeFirstById, if_pos hx] at h
        exact List.mem_cons_of_mem _ h
      · simp only [removeFirstById, if_neg hx, List.mem_cons] at h
        rcases h with h | h
        · exact h ▸ List.mem_cons_self _ _
        · exact List.mem_cons_of_mem _ (ih h)

theorem Enqueue_not_full (m : QMState) (r : GenerationRequest)
    (h : m.queue.length < m.maxQueueSize) :
    (Enqueue m r).2 = Except.ok (m.queue.length + 1) ∧
    (Enqueue m r).1.queue.length = m.queue.length + 1 ∧
    (Enqueue m r).1.maxQueueSize = m.maxQueueSize := by
  simp [Enqueue, Nat.not_le.2 h]

theorem enqueueAll_positions_from (reqs : List GenerationRequest) (m : QMState)
    (h : m.queue.length + reqs.length ≤ m.maxQueueSize) :
    (enqueueAll m reqs).2 =
      (List.range reqs.length).map
        (fun i => Except.ok (m.queue.length + i + 1)) := by
  induction reqs generalizing m with
  | nil => simp [enqueueAll]
  | cons r rs ih =>
      have hlt : m.queue.length < m.maxQueueSize := by
        simp only [List.length_cons] at h
        omega
      obtain ⟨h1, h2, h3⟩ := Enqueue_not_full m r hlt
      have hrec := ih (Enqueue m r).1 (by
        rw [h2, h3]
        simp only [List.length_cons] at h
        omega)
      simp only [enqueueAll, hrec, h1, h2, List.length_cons,
        List.range_succ_eq_map, List.map_cons, List.map_map]
      congr 1
      apply List.map_congr_left
      intro i _
      simp only [Function.comp_apply]
      congr 1
      omega

/-! ## Concrete fixtures for witnesses and counterexamples -/

/-- A minimal well-formed request with the given id. -/
def sampleReq (id : String) : GenerationRequest :=
  { id := id, prompt := "p", negPrompt := "", model := "", width := 64,
    height := 64, steps := 2, cfgScale := 7, seed := 1, batchSize := 1,
    sampler := "euler_a", createdAt := 0, updatedAt := 0 }

/-- A fresh manager state with queue capacity 3 (`NewManager`). -/
def freshState3 : QMState :=
  { queue := [], statuses := [], cancelChans := [], processingChan := [],
    maxQueueSize := 3 }

/-- A fresh manager state with queue capacity 1. -/
def freshState1 : QMState :=
  { queue := [], statuses := [], cancelChans := [], processingChan := [],
    maxQueueSize := 1 }

/-- A sample generation result. -/
def sampleResult : GenerationResult :=
  { imagePath := "x.png", imageURL := "/outputs/x.png", seed := 1,
    width := 64, height := 64, metadata := [] }

/-- State after enqueueing job "a" and then cancelling it (capacity 3). -/
def afterCancelA : QMState :=
  (Cancel (Enqueue freshState3 (sampleReq "a")).1 "a" 10).1

/-- The status record of job "a" in `afterCancelA`. -/
def cancelledStatusA : GenerationStatus :=
  { initialStatus (sampleReq "a") with
      status := GenerationStatusType.cancelled, completedAt := some 10 }

/-- State after enqueueing "a", "b", "c" (capacity 3) and cancelling "b". -/
def afterCancelB : QMState :=
  (Cancel (enqueueAll freshState3
    [sampleReq "a", sampleReq "b", sampleReq "c"]).1 "b" 5).1

/-- Capacity-1 state after enqueueing "a" and cancelling it: the pending list
is empty but the dispatch channel still holds the request of "a". -/
def chanFullState : QMState :=
  (Cancel (Enqueue freshState1 (sampleReq "a")).1 "a" 3).1

/-! ## Claim theorems: queue manager -/

/-- C1 (counterexample): terminal states are not absorbing.  Job "a" is
enqueued and cancelled (its status record is `cancelled`); the worker's
completion write `updateStatusWithResults(id, completed, results)` — exactly
the call `processRequest` makes when the bridge returns results — then moves
the very same record to `completed`. -/
theorem cancelled_then_completed_counterexample :
    (mapGet afterCancelA.statuses "a").map GenerationStatus.status =
      some GenerationStatusType.cancelled ∧
    (mapGet (updateStatusWithResults afterCancelA "a"
        GenerationStatusType.completed [sampleResult] 20).statuses "a").map
        GenerationStatus.status = some GenerationStatusType.completed := by
  constructor
  · decide
  · decide

/-- C1 (amended): the status-update operations of the queue manager are
unconditional — they never inspect the current state.  For any job with a
status record (whatever its current state, in particular `cancelled`), the
worker's completion write sets the status to `completed` and the failure
write sets it to `failed`; terminal states are therefore not absorbing. -/
theorem status_writes_unconditional (m : QMState) (id : String)
    (st : GenerationStatus) (results : List GenerationResult)
    (errorMsg : String) (now : Nat) (h : mapGet m.statuses id = some st) :
    (mapGet (updateStatusWithResults m id GenerationStatusType.completed
        results now).statuses id).map GenerationStatus.status =
      some GenerationStatusType.completed ∧
    (mapGet (updateStatusWithError m id GenerationStatusType.failed
        errorMsg now).statuses id).map GenerationStatus.status =
      some GenerationStatusType.failed := by
  constructor
  · simp [updateStatusWithResults, h, mapGet_mapSet_self]
  · simp [updateStatusWithError, h, mapGet_mapSet_self]

/-- C1 witness: the amended theorem applied to the concrete cancelled job of
the counterexample state. -/
theorem status_writes_unconditional_witness :
    mapGet afterCancelA.statuses "a" = some cancelledStatusA ∧
    ((mapGet (updateStatusWithResults afterCancelA "a"
        GenerationStatusType.completed [sampleResult] 20).statuses "a").map
        GenerationStatus.status = some GenerationStatusType.completed ∧
      (mapGet (updateStatusWithError afterCancelA "a"
        GenerationStatusType.failed "boom" 20).statuses "a").map
        GenerationStatus.status = some GenerationStatusType.failed) :=
  ⟨by decide,
   status_writes_unconditional afterCancelA "a" cancelledStatusA
     [sampleResult] "boom" 20 (by decide)⟩

/-- C2: when the pending count has reached the configured maximum queue
size, `Enqueue` returns `ErrQueueFull` and the state — pending list, status
table, cancel channels and dispatch channel — is returned completely
unchanged. -/
theorem enqueue_full_rejects_unchanged (m : QMState)
    (req : GenerationRequest) (h : m.maxQueueSize ≤ m.queue.length) :
    Enqueue m req = (m, Except.error QueueError.queueFull) := by
  simp [Enqueue, h]

/-- C2 witness: a capacity-1 manager holding one pending job rejects the
second enqueue and is unchanged. -/
theorem enqueue_full_rejects_unchanged_witness :
    (Enqueue freshState1 (sampleReq "a")).1.maxQueueSize ≤
      (Enqueue freshState1 (sampleReq "a")).1.queue.length ∧
    Enqueue (Enqueue freshState1 (sampleReq "a")).1 (sampleReq "b") =
      ((Enqueue freshState1 (sampleReq "a")).1,
       Except.error QueueError.queueFull) :=
  ⟨by decide,
   enqueue_full_rejects_unchanged (Enqueue freshState1 (sampleReq "a")).1
     (sampleReq "b") (by decide)⟩

/-- C3 (counterexample): enqueue "a", "b", "c" and cancel "b" while nothing
has been dispatched.  The pending list keeps entry "c" at its old recorded
position 3; the claim's expected position 2 does not hold. -/
theorem cancel_position_counterexample :
    afterCancelB.queue.map (fun it => (it.request.id, it.position)) =
      [("a", 1), ("c", 3)] ∧
    ¬ afterCancelB.queue.map (fun it => (it.request.id, it.position)) =
      [("a", 1), ("c", 2)] := by
  constructor
  · decide
  · decide

/-- C3 (amended): `Cancel` on a queued job removes the first matching entry
from the pending list but does not recompute the positions of the remaining
entries — every surviving entry is an unchanged item of the old pending list,
keeping its previously recorded position.  (Renumbering happens only in
`removeFromQueue`, which runs when a worker finishes a job.) -/
theorem cancel_removes_without_renumber (m : QMState) (id : String)
    (now : Nat) (st : GenerationStatus)
    (hst : mapGet m.statuses id = some st) :
    ((Cancel m id now).1).queue = removeFirstById m.queue id ∧
    ∀ it ∈ removeFirstById m.queue id, it ∈ m.queue := by
  constructor
  · simp [Cancel, hst]
  · intro it hit
    exact mem_removeFirstById m.queue id it hit

/-- C3 witness: the amended theorem applied to the A, B, C scenario. -/
theorem cancel_removes_without_renumber_witness :
    mapGet (enqueueAll freshState3
        [sampleReq "a", sampleReq "b", sampleReq "c"]).1.statuses "b" =
      some (initialStatus (sampleReq "b")) ∧
    (afterCancelB.queue = removeFirstById (enqueueAll freshState3
        [sampleReq "a", sampleReq "b", sampleReq "c"]).1.queue "b" ∧
      ∀ it ∈ removeFirstById (enqueueAll freshState3
        [sampleReq "a", sampleReq "b", sampleReq "c"]).1.queue "b",
        it ∈ (enqueueAll freshState3
          [sampleReq "a", sampleReq "b", sampleReq "c"]).1.queue) :=
  ⟨by decide,
   cancel_removes_without_renumber (enqueueAll freshState3
       [sampleReq "a", sampleReq "b", sampleReq "c"]).1 "b" 5
     (initialStatus (sampleReq "b")) (by decide)⟩

/-- C4 (counterexample): the progress values the mock generation path writes
during one successful job are not non-decreasing when `batch_size ≥ 2`: with
`batch_size = 2` and `steps = 2` the trace is `[50, 100, 50, 100]`, which
drops from 100 back to 50 at the batch boundary. -/
theorem progress_not_monotone_counterexample :
    mockProgressTrace 2 2 = [50, 100, 50, 100] ∧
    ¬ List.Chain' (fun a b : ℚ => a ≤ b) (mockProgressTrace 2 2) := by
  have h : mockProgressTrace 2 2 = [50, 100, 50, 100] := by
    norm_num [mockProgressTrace, List.range_succ, List.replicate_succ,
      List.flatten_cons, List.flatten_nil, List.replicate_zero]
  refine ⟨h, ?_⟩
  rw [h]
  simp only [List.chain'_cons, List.chain'_singleton, and_true]
  push_neg
  intro _
  norm_num

/-- C4 (amended): when the bridge returns results, the worker's final write
gives the status record state `completed`, progress exactly 100, the returned
results attached and the completion time stamped; and for `batch_size = 1`
(as in the spec's happy-path scenario) the progress values written during the
mock run are non-decreasing and end at exactly 100.  (For `batch_size ≥ 2`
the mock path restarts the per-image progress at each batch item, so the
whole-run sequence is not non-decreasing — see the counterexample.) -/
theorem success_final_status_and_progress (m : QMState) (id : String)
    (st : GenerationStatus) (results : List GenerationResult) (now : Nat)
    (steps : Nat) (h : mapGet m.statuses id = some st) (hsteps : 0 < steps) :
    mapGet (updateStatusWithResults m id GenerationStatusType.completed
        results now).statuses id =
      some { st with status := GenerationStatusType.completed,
                     progress := 100, results := results,
                     completedAt := some now } ∧
    List.Chain' (fun a b : ℚ => a ≤ b) (mockProgressTrace 1 steps) ∧
    (mockProgressTrace 1 steps).getLast? = some 100 := by
  refine ⟨?_, ?_, ?_⟩
  · simp [updateStatusWithResults, h, mapGet_mapSet_self]
  · have htr : mockProgressTrace 1 steps =
        (List.range steps).map
          (fun s : Nat => (((s : ℚ) + 1) / (steps : ℚ)) * 100) := by
      simp [mockProgressTrace]
    obtain ⟨k, rfl⟩ : ∃ k, steps = k + 1 := ⟨steps - 1, by omega⟩
    rw [htr, List.chain'_map, List.chain'_range_succ]
    intro i _
    have hk : (0 : ℚ) < ((k + 1 : Nat) : ℚ) := by
      exact_mod_cast Nat.succ_pos k
    gcongr
    linarith
  · have htr : mockProgressTrace 1 steps =
        (List.range steps).map
          (fun s : Nat => (((s : ℚ) + 1) / (steps : ℚ)) * 100) := by
      simp [mockProgressTrace]
    obtain ⟨k, rfl⟩ : ∃ k, steps = k + 1 := ⟨steps - 1, by omega⟩
    rw [htr, List.range_succ, List.map_append, List.map_cons, List.map_nil,
      List.getLast?_concat]
    push_cast
    have hdiv : ((k : ℚ) + 1) / ((k : ℚ) + 1) = 1 := div_self (by positivity)
    rw [hdiv, one_mul]

/-- C4 witness: the amended theorem applied to a freshly enqueued job "a"
completed with one sample result, with `steps = 2`. -/
theorem success_final_status_and_progress_witness :
    mapGet (Enqueue freshState3 (sampleReq "a")).1.statuses "a" =
      some (initialStatus (sampleReq "a")) ∧
    (mapGet (updateStatusWithResults (Enqueue freshState3 (sampleReq "a")).1
        "a" GenerationStatusType.completed [sampleResult] 20).statuses "a" =
      some { initialStatus (sampleReq "a") with
               status := GenerationStatusType.completed, progress := 100,
               results := [sampleResult], completedAt := some 20 } ∧
      List.Chain' (fun a b : ℚ => a ≤ b) (mockProgressTrace 1 2) ∧
      (mockProgressTrace 1 2).getLast? = some 100) :=
  ⟨by decide,
   success_final_status_and_progress (Enqueue freshState3 (sampleReq "a")).1
     "a" (initialStatus (sampleReq "a")) [sampleResult] 20 2 (by decide)
     (by decide)⟩

/-- C5: starting from an empty pending list, any sequence of `Enqueue` calls
that all fit under the configured maximum (no cancellations, nothing leaving
the pending list in between) returns positions exactly `1, 2, ..., N` in
submission order. -/
theorem enqueue_positions_one_to_n (m : QMState)
    (reqs : List GenerationRequest) (h0 : m.queue = [])
    (h : reqs.length ≤ m.maxQueueSize) :
    (enqueueAll m reqs).2 =
      (List.range reqs.length).map (fun i => Except.ok (i + 1)) := by
  have := enqueueAll_positions_from reqs m (by rw [h0]; simpa using h)
  rw [this, h0]
  simp

/-- C5 witness: three enqueues into an empty capacity-3 manager return
positions 1, 2, 3. -/
theorem enqueue_positions_one_to_n_witness :
    freshState3.queue = [] ∧
    (enqueueAll freshState3
        [sampleReq "a", sampleReq "b", sampleReq "c"]).2 =
      (List.range 3).map (fun i => Except.ok (i + 1)) :=
  ⟨rfl,
   enqueue_positions_one_to_n freshState3
     [sampleReq "a", sampleReq "b", sampleReq "c"] rfl (by decide)⟩

/-- C10: `Enqueue` never blocks on the dispatch publish: when the dispatch
channel is full (its capacity equals the maximum queue size) while the
pending list still has room, `Enqueue` succeeds — it returns the new 1-based
position and records the job as `queued` — but the dispatch channel is left
unchanged, so the request is silently never published to the workers (which
receive work only from this channel). -/
theorem enqueue_full_channel_drops_dispatch (m : QMState)
    (req : GenerationRequest)
    (hchan : m.maxQueueSize ≤ m.processingChan.length)
    (hq : m.queue.length < m.maxQueueSize) :
    (Enqueue m req).2 = Except.ok (m.queue.length + 1) ∧
    (mapGet ((Enqueue m req).1).statuses req.id).map GenerationStatus.status =
      some GenerationStatusType.queued ∧
    ((Enqueue m req).1).processingChan = m.processingChan := by
  refine ⟨?_, ?_, ?_⟩
  · simp [Enqueue, Nat.not_le.2 hq]
  · simp [Enqueue, Nat.not_le.2 hq, mapGet_mapSet_self, initialStatus]
  · simp [Enqueue, Nat.not_le.2 hq, Nat.not_lt.2 hchan]

/-- C10 witness: the hypothesis state is reachable — enqueue "a" into a
capacity-1 manager and cancel it: the pending list is empty again but the
dispatch channel still holds "a"'s request, so enqueueing "b" succeeds
without publishing it. -/
theorem enqueue_full_channel_drops_dispatch_witness :
    (chanFullState.maxQueueSize ≤ chanFullState.processingChan.length ∧
      chanFullState.queue.length < chanFullState.maxQueueSize) ∧
    ((Enqueue chanFullState (sampleReq "b")).2 =
        Except.ok (chanFullState.queue.length + 1) ∧
      (mapGet ((Enqueue chanFullState (sampleReq "b")).1).statuses "b").map
        GenerationStatus.status = some GenerationStatusType.queued ∧
      ((Enqueue chanFullState (sampleReq "b")).1).processingChan =
        chanFullState.processingChan) :=
  ⟨⟨by decide, by decide⟩,
   enqueue_full_channel_drops_dispatch chanFullState (sampleReq "b")
     (by decide) (by decide)⟩

/-! ## Placeholder image generation (`internal/inference/onnx_engine.go`)

`createMockImage` computes `hash = hash*31 + int(r)` over the prompt's runes
in a Go 64-bit `int`; overflow wraps.  We track the two's-complement bit
pattern as a `Nat` modulo `2^64`.  The bytes the source then extracts —
`uint8((hash>>16)&0xFF)`, `uint8((hash>>8)&0xFF)`, `uint8(hash&0xFF)` — are
bits 16–23, 8–15 and 0–7 of that pattern, identical for the arithmetic
(signed) and the logical shift, so they are read off the pattern directly. -/

/-- The prompt hash loop of `createMockImage`. -/
def promptHash (runes : List Nat) : Nat :=
  runes.foldl (fun h r => (h * 31 + r) % 2 ^ 64) 0

/-- One colour channel of the gradient at row `y`:
Go computes `uint8(float64(c1)*(1-t) + float64(c2)*t)` with `t = y/height`
in `float64` and truncates to `uint8`; this is modelled in exact integer
arithmetic as `(c1*(height-y) + c2*y) / height` (floor).  The claims proved
about the image (determinism in prompt and dimensions) are insensitive to
the rounding model. -/
def gradientChannel (c1 c2 y height : Nat) : Nat :=
  (c1 * (height - y) + c2 * y) / height

/-- `ONNXEngine.createMockImage`: the RGBA pixel grid (rows of `(r,g,b,a)`
values).  As in the source, the pixel value depends on the row `y` only; the
`x` loop writes the same value across a row. -/
def createMockImage (width height : Nat) (runes : List Nat) :
    List (List (Nat × Nat × Nat × Nat)) :=
  let h := promptHash runes
  let r1 := (h / 65536) % 256
  let g1 := (h / 256) % 256
  let b1 := h % 256
  let r2 := 255 - r1
  let g2 := 255 - g1
  let b2 := 255 - b1
  (List.range height).map (fun y =>
    (List.range width).map (fun _x =>
      (gradientChannel r1 r2 y height,
       gradientChannel g1 g2 y height,
       gradientChannel b1 b2 y height, 255)))

/-- The rune (Unicode code point) sequence of a prompt string, as iterated by
Go's `for _, r := range prompt`. -/
def promptRunes (s : String) : List Nat :=
  s.toList.map Char.toNat

/-- The pixel contents of the images produced by `ONNXEngine.mockGenerate`
(the fallback taken by `ONNXEngine.Generate` when no real model session
exists): one `createMockImage(req.Width, req.Height, req.Prompt)` per batch
index.  File names (random UUIDs) and metadata are not part of the pixel
content. -/
def onnxMockImages (req : GenerationRequest) :
    List (List (List (Nat × Nat × Nat × Nat))) :=
  List.replicate req.batchSize
    (createMockImage req.width req.height (promptRunes req.prompt))

/-! ## Python engine submit-phase routing
(`internal/inference/python_engine.go`, `Generate`) -/

/-- Outcome of the submit POST to the external process, as seen by
`Generate`: the transport may fail (`httpClient.Do`/`Post` returns an
error), the reply body may fail to decode, or a reply
`{job_id, status, message}` arrives. -/
inductive SubmitOutcome where
  | transportError
  | undecodableReply
  | reply (jobId : String) (status : String) (message : String)
deriving DecidableEq, Repr

/-- Where `Generate` goes after the submit phase: the local mock fallback
(`mockGenerate(req)`), a hard error returned to the caller, or the 500 ms
polling loop for the accepted remote job. -/
inductive GeneratePhase where
  | fallback (req : GenerationRequest)
  | hardError (msg : String)
  | poll (jobId : String)
deriving DecidableEq, Repr

/-- The submit phase of `PythonEngine.Generate`: not-ready engines fall back
to mock immediately; a transport error on the submit request is absorbed
into the mock fallback; an undecodable reply and a reply whose status is not
"accepted" are hard errors; an accepted reply proceeds to polling. -/
def generateSubmit (ready : Bool) (req : GenerationRequest)
    (outcome : SubmitOutcome) : GeneratePhase :=
  if !ready then GeneratePhase.fallback req
  else
    match outcome with
    | SubmitOutcome.transportError => GeneratePhase.fallback req
    | SubmitOutcome.undecodableReply =>
        GeneratePhase.hardError "failed to parse generation response"
    | SubmitOutcome.reply jobId status message =>
        if status ≠ "accepted" then
          GeneratePhase.hardError ("generation not accepted: " ++ message)
        else
          GeneratePhase.poll jobId

/-! ## External process supervisor
(`internal/inference/python_service.go`, PythonServiceManager)

Health probes are an oracle `Nat → Bool`: probe 0 is the `isHealthy()`
pre-check at the top of `Start`, probe `i ≥ 1` is the check on the i-th
500 ms ticker tick of `waitForHealthy`.  With the 30 s deadline and the
post-probe `time.Now().After(deadline)` check, the loop probes on ticks
1..61 (tick 61 at 30.5 s is the first whose time exceeds the deadline) and
returns the timeout error after the last failed probe. -/

/-- Supervisor state: `isRunning` flag and whether `cmd` holds a launched
process. -/
structure SupervisorState where
  isRunning : Bool
  cmdActive : Bool
deriving DecidableEq, Repr

/-- `PythonServiceManager.Stop`: no-op when no process was launched;
otherwise terminates the process (gracefully, then forcibly), clears `cmd`
and sets `isRunning` to false. -/
def StopService (st : SupervisorState) : SupervisorState :=
  if st.cmdActive then { isRunning := false, cmdActive := false } else st

/-- The `waitForHealthy` polling loop, probing ticks `i, i+1, ...` and
giving up after tick 61. -/
def waitLoop (oracle : Nat → Bool) (i : Nat) : Bool :=
  if oracle i then true
  else if 61 ≤ i then false
  else waitLoop oracle (i + 1)
termination_by 61 + 1 - i

/-- `PythonServiceManager.waitForHealthy(30s)`: true iff some probe within
the startup deadline succeeds. -/
def waitForHealthy (oracle : Nat → Bool) : Bool :=
  waitLoop oracle 1

/-- `PythonServiceManager.Start`.  `serviceDirExists` is the
`os.Stat(servicePath)` check; `venvOk` is "the virtual environment exists,
or the one-time bootstrap (`setupVirtualEnvironment`) succeeded".  On a
successful health wait the best-effort default-model load runs (non-fatal,
no state change); on timeout the launched process is stopped and an error is
returned. -/
def StartService (st : SupervisorState) (oracle : Nat → Bool)
    (serviceDirExists venvOk : Bool) : SupervisorState × Option String :=
  if oracle 0 then ({ st with isRunning := true }, none)
  else if !serviceDirExists then
    (st, some "Python service directory not found")
  else if !venvOk then
    (st, some "failed to setup virtual environment")
  else
    let launched := { st with cmdActive := true }
    if waitForHealthy oracle then
      ({ launched with isRunning := true }, none)
    else
      (StopService launched, some "Python service failed to start")

/-- `PythonServiceManager.IsRunning`: `isRunning && isHealthy()` — liveness
requires the health endpoint to respond right now. -/
def IsRunningService (st : SupervisorState) (healthyNow : Bool) : Bool :=
  st.isRunning && healthyNow

theorem waitLoop_never_healthy (oracle : Nat → Bool)
    (h : ∀ i, i ≤ 61 → oracle i = false) :
    ∀ fuel i, 1 ≤ i → i ≤ 61 → 61 - i < fuel → waitLoop oracle i = false := by
  intro fuel
  induction fuel with
  | zero => intro i _ _ hf; omega
  | succ fuel ih =>
      intro i h1 h61 hf
      rw [waitLoop, h i h61]
      simp only [Bool.false_eq_true, if_false]
      by_cases hi : 61 ≤ i
      · simp [hi]
      · simp only [hi, if_false]
        exact ih (i + 1) (by omega) (by omega) (by omega)

/-! ## Claim theorems: inference bridge and supervisor -/

/-- C6: the placeholder fallback of the ONNX engine's `Generate` is
deterministic in the prompt and the dimensions: two calls with identical
prompts, widths, heights and batch sizes — the job id, seed and every other
request field may differ — produce identical pixel content, and exactly
`batch_size` images. -/
theorem mock_images_deterministic (ra rb : GenerationRequest)
    (hp : ra.prompt = rb.prompt) (hw : ra.width = rb.width)
    (hh : ra.height = rb.height) (hb : ra.batchSize = rb.batchSize) :
    onnxMockImages ra = onnxMockImages rb ∧
    (onnxMockImages ra).length = ra.batchSize := by
  unfold onnxMockImages
  rw [hp, hw, hh, hb]
  exact ⟨rfl, by simp⟩

/-- C6 witness: two requests sharing prompt and dimensions but with
different job ids and seeds produce the same images. -/
theorem mock_images_deterministic_witness :
    (sampleReq "a").prompt = { sampleReq "b" with seed := 42 }.prompt ∧
    (sampleReq "a").width = { sampleReq "b" with seed := 42 }.width ∧
    (sampleReq "a").height = { sampleReq "b" with seed := 42 }.height ∧
    (sampleReq "a").batchSize = { sampleReq "b" with seed := 42 }.batchSize ∧
    (onnxMockImages (sampleReq "a") =
        onnxMockImages { sampleReq "b" with seed := 42 } ∧
      (onnxMockImages (sampleReq "a")).length = (sampleReq "a").batchSize) :=
  ⟨rfl, rfl, rfl, rfl,
   mock_images_deterministic (sampleReq "a")
     { sampleReq "b" with seed := 42 } rfl rfl rfl rfl⟩

/-- C8: submit-time failures are routed in two distinct ways — a transport
failure of the submit request is absorbed and becomes the local mock
fallback (no error for the job), while an explicit non-accepted status in
the reply is a hard error returned to the caller without falling back. -/
theorem submit_failure_routing (req : GenerationRequest)
    (jobId status message : String) (hs : status ≠ "accepted") :
    generateSubmit true req SubmitOutcome.transportError =
      GeneratePhase.fallback req ∧
    generateSubmit true req (SubmitOutcome.reply jobId status message) =
      GeneratePhase.hardError ("generation not accepted: " ++ message) := by
  constructor
  · rfl
  · simp [generateSubmit, hs]

/-- C8 witness: the routing theorem at a concrete request and a "rejected"
reply. -/
theorem submit_failure_routing_witness :
    "rejected" ≠ "accepted" ∧
    (generateSubmit true (sampleReq "a") SubmitOutcome.transportError =
        GeneratePhase.fallback (sampleReq "a") ∧
      generateSubmit true (sampleReq "a")
          (SubmitOutcome.reply "j1" "rejected" "busy") =
        GeneratePhase.hardError ("generation not accepted: " ++ "busy")) :=
  ⟨by decide,
   submit_failure_routing (sampleReq "a") "j1" "rejected" "busy" (by decide)⟩

/-- C9: if the health endpoint never responds successfully within the
startup deadline (neither at the pre-check nor on any of the 500 ms polls up
to the 30 s deadline), `Start` stops the launched process and returns an
error, and `IsRunning()` remains false afterwards (whatever a later health
probe would say, since the `isRunning` flag is false). -/
theorem supervisor_start_timeout (st : SupervisorState) (oracle : Nat → Bool)
    (h : ∀ i, i ≤ 61 → oracle i = false) :
    (StartService st oracle true true).2 =
      some "Python service failed to start" ∧
    (StartService st oracle true true).1.isRunning = false ∧
    ∀ healthyNow,
      IsRunningService (StartService st oracle true true).1 healthyNow =
        false := by
  have h0 : oracle 0 = false := h 0 (by omega)
  have hw : waitForHealthy oracle = false :=
    waitLoop_never_healthy oracle h 61 1 (by omega) (by omega) (by omega)
  refine ⟨?_, ?_, ?_⟩
  · simp [StartService, h0, hw, StopService]
  · simp [StartService, h0, hw, StopService]
  · intro healthyNow
    simp [StartService, h0, hw, StopService, IsRunningService]

/-- C9 witness: the timeout theorem at the always-unhealthy oracle and the
freshly constructed manager state. -/
theorem supervisor_start_timeout_witness :
    (∀ i, i ≤ 61 → (fun _ : Nat => false) i = false) ∧
    ((StartService ⟨false, false⟩ (fun _ => false) true true).2 =
        some "Python service failed to start" ∧
      (StartService ⟨false, false⟩ (fun _ => false) true true).1.isRunning =
        false ∧
      ∀ healthyNow,
        IsRunningService
          (StartService ⟨false, false⟩ (fun _ => false) true true).1
          healthyNow = false) :=
  ⟨fun _ _ => rfl,
   supervisor_start_timeout ⟨false, false⟩ (fun _ => false)
     (fun _ _ => rfl)⟩

/-! ## Optional transport confidentiality
(`internal/inference/python_engine.go`, `encryptIfNeeded`/`decryptIfNeeded`)

Bytes are `Nat` values `< 256`.  The AES-256 block cipher built from
`sha256(secret)` is Go standard-library code outside this repository and is
abstracted as a block function `E` assumed only to map any register to a
16-byte block; `cipher.NewCFBEncrypter`/`NewCFBDecrypter` (CFB mode with a
16-byte shift register seeded by the IV) and the base64 transport encoding
(`base64.StdEncoding`, sextet values written directly, `64` standing for the
padding character) are embedded concretely.  The source draws the IV from
`crypto/rand`; the embedding takes the IV as an argument, so the freshness
of the IV becomes the hypothesis that two calls use distinct IVs. -/

/-- `stream.XORKeyStream`: byte-wise XOR (truncating to the shorter list). -/
def xorBytes (a b : List Nat) : List Nat :=
  List.zipWith Nat.xor a b

/-- CFB-mode encryption: each 16-byte plaintext block is XORed with
`E(register)` and the resulting ciphertext block becomes the next register
(the register starts as the IV). -/
def cfbEncrypt (E : List Nat → List Nat) (reg : List Nat) (p : List Nat) :
    List Nat :=
  if p = [] then []
  else
    xorBytes (p.take 16) (E reg) ++
      cfbEncrypt E (xorBytes (p.take 16) (E reg)) (p.drop 16)
termination_by p.length
decreasing_by
  rename_i hp
  have hlen : 0 < p.length := List.length_pos.mpr hp
  simp [List.length_drop]
  omega

/-- CFB-mode decryption: each 16-byte ciphertext block is XORed with
`E(register)` and becomes the next register itself. -/
def cfbDecrypt (E : List Nat → List Nat) (reg : List Nat) (ct : List Nat) :
    List Nat :=
  if ct = [] then []
  else
    xorBytes (ct.take 16) (E reg) ++ cfbDecrypt E (ct.take 16) (ct.drop 16)
termination_by ct.length
decreasing_by
  rename_i hc
  have hlen : 0 < ct.length := List.length_pos.mpr hc
  simp [List.length_drop]
  omega

/-- `base64.StdEncoding.EncodeToString` on a byte list, with sextets kept as
numbers 0–63 and `64` standing for the `=` padding character (an injective
renaming of the base64 alphabet). -/
def base64Encode : List Nat → List Nat
  | b0 :: b1 :: b2 :: rest =>
      (b0 / 4) :: ((b0 % 4) * 16 + b1 / 16) :: ((b1 % 16) * 4 + b2 / 64) ::
        (b2 % 64) :: base64Encode rest
  | [b0, b1] => [b0 / 4, (b0 % 4) * 16 + b1 / 16, (b1 % 16) * 4, 64]
  | [b0] => [b0 / 4, (b0 % 4) * 16, 64, 64]
  | [] => []

/-- `base64.StdEncoding.DecodeString` (on well-formed input; malformed tails
decode to `[]` where Go would return an error, which the proved properties
never rely on). -/
def base64Decode : List Nat → List Nat
  | s0 :: s1 :: s2 :: s3 :: rest =>
      if s2 = 64 then [s0 * 4 + s1 / 16]
      else if s3 = 64 then [s0 * 4 + s1 / 16, (s1 % 16) * 16 + s2 / 4]
      else (s0 * 4 + s1 / 16) :: ((s1 % 16) * 16 + s2 / 4) ::
        ((s2 % 4) * 64 + s3) :: base64Decode rest
  | _ => []

/-- `PythonEngine.encryptIfNeeded`: pass-through when encryption is
disabled; otherwise base64 of the random IV followed by the CFB ciphertext. -/
def encryptIfNeeded (enabled : Bool) (E : List Nat → List Nat)
    (iv data : List Nat) : List Nat :=
  if !enabled then data
  else base64Encode (iv ++ cfbEncrypt E iv data)

/-- `PythonEngine.decryptIfNeeded`: pass-through when encryption is
disabled; otherwise base64-decode, reject ciphertexts shorter than one
block ("ciphertext too short"), split off the IV and CFB-decrypt. -/
def decryptIfNeeded (enabled : Bool) (E : List Nat → List Nat)
    (data : List Nat) : Option (List Nat) :=
  if !enabled then some data
  else
    if (base64Decode data).length < 16 then none
    else some (cfbDecrypt E ((base64Decode data).take 16)
      ((base64Decode data).drop 16))

theorem xorBytes_cancel (a : List Nat) :
    ∀ k : List Nat, a.length ≤ k.length → xorBytes (xorBytes a k) k = a := by
  induction a with
  | nil => intro k _; simp [xorBytes]
  | cons x xs ih =>
      intro k hk
      cases k with
      | nil => simp at hk
      | cons y ys =>
          simp only [xorBytes, List.zipWith_cons_cons] at *
          have hx : (x.xor y).xor y = x := Nat.xor_cancel_right y x
          rw [hx]
          simp only [List.length_cons] at hk
          rw [ih ys (by omega)]

theorem xorBytes_length (a b : List Nat) :
    (xorBytes a b).length = min a.length b.length := by
  simp [xorBytes]

theorem cfb_roundtrip (E : List Nat → List Nat)
    (hE : ∀ b, (E b).length = 16) :
    ∀ n p reg, p.length ≤ n →
      cfbDecrypt E reg (cfbEncrypt E reg p) = p := by
  intro n
  induction n with
  | zero =>
      intro p reg hp
      have h0 : p = [] := List.length_eq_zero.mp (Nat.le_zero.mp hp)
      subst h0
      rw [cfbEncrypt, cfbDecrypt]
      simp
  | succ n ih =>
      intro p reg hp
      by_cases h0 : p = []
      · subst h0
        rw [cfbEncrypt, cfbDecrypt]
        simp
      · rw [cfbEncrypt, if_neg h0]
        by_cases hps : p.length ≤ 16
        · have htake : p.take 16 = p := List.take_of_length_le hps
          have hdrop : p.drop 16 = [] := List.drop_eq_nil_of_le hps
          rw [htake, hdrop, cfbEncrypt, if_pos rfl, List.append_nil]
          have hplen : 0 < p.length := List.length_pos.mpr h0
          have hcne : xorBytes p (E reg) ≠ [] := by
            intro hcontra
            have hl := congrArg List.length hcontra
            rw [xorBytes_length, hE reg] at hl
            simp only [List.length_nil] at hl
            omega
          rw [cfbDecrypt, if_neg hcne]
          have hctake : (xorBytes p (E reg)).take 16 = xorBytes p (E reg) := by
            apply List.take_of_length_le
            rw [xorBytes_length, hE reg]
            omega
          have hcdrop : (xorBytes p (E reg)).drop 16 = [] := by
            apply List.drop_eq_nil_of_le
            rw [xorBytes_length, hE reg]
            omega
          rw [hctake, hcdrop, cfbDecrypt, if_pos rfl, List.append_nil]
          exact xorBytes_cancel p (E reg) (by rw [hE reg]; omega)
        · push_neg at hps
          have hc16 : (xorBytes (p.take 16) (E reg)).length = 16 := by
            rw [xorBytes_length, hE reg, List.length_take]
            omega
          have hne : xorBytes (p.take 16) (E reg) ++
              cfbEncrypt E (xorBytes (p.take 16) (E reg)) (p.drop 16) ≠ [] := by
            intro hcontra
            have hl := congrArg List.length hcontra
            simp only [List.length_append, List.length_nil, hc16] at hl
            omega
          rw [cfbDecrypt, if_neg hne]
          have htake : (xorBytes (p.take 16) (E reg) ++
              cfbEncrypt E (xorBytes (p.take 16) (E reg)) (p.drop 16)).take 16 =
              xorBytes (p.take 16) (E reg) := List.take_left' hc16
          have hdrop : (xorBytes (p.take 16) (E reg) ++
              cfbEncrypt E (xorBytes (p.take 16) (E reg)) (p.drop 16)).drop 16 =
              cfbEncrypt E (xorBytes (p.take 16) (E reg)) (p.drop 16) :=
            List.drop_left' hc16
          rw [htake, hdrop]
          have hxor : xorBytes (xorBytes (p.take 16) (E reg)) (E reg) =
              p.take 16 := by
            apply xorBytes_cancel
            rw [hE reg, List.length_take]
            omega
          have hrec : cfbDecrypt E (xorBytes (p.take 16) (E reg))
              (cfbEncrypt E (xorBytes (p.take 16) (E reg)) (p.drop 16)) =
              p.drop 16 := by
            apply ih
            rw [List.length_drop]
            omega
          rw [hxor, hrec, List.take_append_drop]

theorem base64_roundtrip :
    ∀ n p, p.length ≤ n → (∀ b ∈ p, b < 256) →
      base64Decode (base64Encode p) = p := by
  intro n
  induction n with
  | zero =>
      intro p hl _
      have h0 : p = [] := List.length_eq_zero.mp (Nat.le_zero.mp hl)
      subst h0
      rfl
  | succ n ih =>
      intro p hl hb
      match p with
      | [] => rfl
      | [b0] =>
          simp only [base64Encode, base64Decode]
          norm_num
          omega
      | [b0, b1] =>
          have hb1 : b1 < 256 := hb b1 (by simp)
          simp only [base64Encode, base64Decode]
          have hs2 : ¬ (b1 % 16) * 4 = 64 := by omega
          rw [if_neg hs2, if_pos trivial]
          simp only [List.cons.injEq, and_true]
          constructor
          · omega
          · omega
      | b0 :: b1 :: b2 :: rest =>
          have hb1 : b1 < 256 := hb b1 (by simp)
          have hb2 : b2 < 256 := hb b2 (by simp)
          simp only [base64Encode, base64Decode]
          have hs2 : ¬ (b1 % 16) * 4 + b2 / 64 = 64 := by omega
          have hs3 : ¬ b2 % 64 = 64 := by omega
          rw [if_neg hs2, if_neg hs3]
          simp only [List.cons.injEq]
          refine ⟨by omega, by omega, by omega, ?_⟩
          apply ih rest
          · simp only [List.length_cons] at hl
            omega
          · intro b hbm
            exact hb b (by simp [hbm])

theorem xor_lt_256 (x y : Nat) (hx : x < 256) (hy : y < 256) :
    x.xor y < 256 := by
  have h := @Nat.bitwise_lt bne x y 8 (by omega) (by omega)
  exact h

theorem xorBytes_lt (a : List Nat) :
    ∀ k : List Nat, (∀ x ∈ a, x < 256) → (∀ x ∈ k, x < 256) →
      ∀ x ∈ xorBytes a k, x < 256 := by
  induction a with
  | nil => intro k _ _ x hx; simp [xorBytes] at hx
  | cons x xs ih =>
      intro k ha hk z hz
      cases k with
      | nil => simp [xorBytes] at hz
      | cons y ys =>
          simp only [xorBytes, List.zipWith_cons_cons, List.mem_cons] at hz
          rcases hz with rfl | hz
          · exact xor_lt_256 x y (ha x (by simp)) (hk y (by simp))
          · exact ih ys (fun w hw => ha w (by simp [hw]))
              (fun w hw => hk w (by simp [hw])) z hz

theorem cfbEncrypt_lt (E : List Nat → List Nat)
    (hEb : ∀ b, ∀ x ∈ E b, x < 256) :
    ∀ n p reg, p.length ≤ n → (∀ x ∈ p, x < 256) →
      ∀ x ∈ cfbEncrypt E reg p, x < 256 := by
  intro n
  induction n with
  | zero =>
      intro p reg hl _ x hx
      have h0 : p = [] := List.length_eq_zero.mp (Nat.le_zero.mp hl)
      subst h0
      rw [cfbEncrypt] at hx
      simp at hx
  | succ n ih =>
      intro p reg hl hp x hx
      by_cases h0 : p = []
      · subst h0
        rw [cfbEncrypt] at hx
        simp at hx
      · rw [cfbEncrypt, if_neg h0, List.mem_append] at hx
        rcases hx with hx | hx
        · exact xorBytes_lt (p.take 16) (E reg)
            (fun w hw => hp w (List.take_subset 16 p hw)) (hEb reg) x hx
        · have hplen : 0 < p.length := List.length_pos.mpr h0
          exact ih (p.drop 16) (xorBytes (p.take 16) (E reg))
            (by rw [List.length_drop]; omega)
            (fun w hw => hp w (List.drop_subset 16 p hw)) x hx

/-- A stand-in block cipher for concrete evaluation: every register maps to
the all-zero 16-byte block. -/
def mockBlockCipher : List Nat → List Nat :=
  fun _ => List.replicate 16 0

/-- C7: with encryption enabled, for every byte payload — including the
empty payload — decrypting the encryption of the payload yields the payload
back (the fresh IV is prepended to the ciphertext); and two encryptions of
the same payload under distinct fresh IVs never produce identical
ciphertext.  `E` is the AES block function (standard library, abstracted);
byte lists carry the invariant that every byte is `< 256`. -/
theorem encryption_roundtrip_and_fresh_iv (E : List Nat → List Nat)
    (hE : ∀ b, (E b).length = 16) (hEb : ∀ b, ∀ x ∈ E b, x < 256)
    (iv1 iv2 p : List Nat)
    (hiv1 : iv1.length = 16) (hiv2 : iv2.length = 16)
    (hiv1b : ∀ x ∈ iv1, x < 256) (hiv2b : ∀ x ∈ iv2, x < 256)
    (hpb : ∀ x ∈ p, x < 256) (hne : iv1 ≠ iv2) :
    decryptIfNeeded true E (encryptIfNeeded true E iv1 p) = some p ∧
    encryptIfNeeded true E iv1 p ≠ encryptIfNeeded true E iv2 p := by
  have hc1b : ∀ x ∈ cfbEncrypt E iv1 p, x < 256 :=
    cfbEncrypt_lt E hEb p.length p iv1 le_rfl hpb
  have hc2b : ∀ x ∈ cfbEncrypt E iv2 p, x < 256 :=
    cfbEncrypt_lt E hEb p.length p iv2 le_rfl hpb
  have hall1 : ∀ x ∈ iv1 ++ cfbEncrypt E iv1 p, x < 256 := by
    intro x hx
    rw [List.mem_append] at hx
    rcases hx with hx | hx
    · exact hiv1b x hx
    · exact hc1b x hx
  have hall2 : ∀ x ∈ iv2 ++ cfbEncrypt E iv2 p, x < 256 := by
    intro x hx
    rw [List.mem_append] at hx
    rcases hx with hx | hx
    · exact hiv2b x hx
    · exact hc2b x hx
  have hdec1 : base64Decode (base64Encode (iv1 ++ cfbEncrypt E iv1 p)) =
      iv1 ++ cfbEncrypt E iv1 p :=
    base64_roundtrip (iv1 ++ cfbEncrypt E iv1 p).length _ le_rfl hall1
  constructor
  · simp only [encryptIfNeeded, decryptIfNeeded, Bool.not_true,
      Bool.false_eq_true, if_false, hdec1]
    have hlen : ¬ (iv1 ++ cfbEncrypt E iv1 p).length < 16 := by
      rw [List.length_append, hiv1]
      omega
    rw [if_neg hlen, List.take_left' hiv1, List.drop_left' hiv1,
      cfb_roundtrip E hE p.length p iv1 le_rfl]
  · intro heq
    simp only [encryptIfNeeded, Bool.not_true, Bool.false_eq_true,
      if_false] at heq
    have hdec2 : base64Decode (base64Encode (iv2 ++ cfbEncrypt E iv2 p)) =
        iv2 ++ cfbEncrypt E iv2 p :=
      base64_roundtrip (iv2 ++ cfbEncrypt E iv2 p).length _ le_rfl hall2
    have hlists : iv1 ++ cfbEncrypt E iv1 p = iv2 ++ cfbEncrypt E iv2 p := by
      rw [← hdec1, ← hdec2, heq]
    have hivs : iv1 = iv2 := by
      have h1 : (iv1 ++ cfbEncrypt E iv1 p).take 16 = iv1 :=
        List.take_left' hiv1
      have h2 : (iv2 ++ cfbEncrypt E iv2 p).take 16 = iv2 :=
        List.take_left' hiv2
      rw [← h1, ← h2, hlists]
    exact hne hivs

/-- C7 witness: the round-trip and IV-distinctness theorem at the stand-in
block cipher, the all-zero and a one-byte-different IV, and the payload
`[0, 255, 7]`. -/
theorem encryption_roundtrip_and_fresh_iv_witness :
    (List.replicate 16 0 : List Nat).length = 16 ∧
    (1 :: List.replicate 15 0 : List Nat).length = 16 ∧
    (List.replicate 16 0 : List Nat) ≠ 1 :: List.replicate 15 0 ∧
    (decryptIfNeeded true mockBlockCipher
        (encryptIfNeeded true mockBlockCipher (List.replicate 16 0)
          [0, 255, 7]) = some [0, 255, 7] ∧
      encryptIfNeeded true mockBlockCipher (List.replicate 16 0)
          [0, 255, 7] ≠
        encryptIfNeeded true mockBlockCipher (1 :: List.replicate 15 0)
          [0, 255, 7]) :=
  ⟨by decide, by decide, by decide,
   encryption_roundtrip_and_fresh_iv mockBlockCipher (fun _ => rfl)
     (fun _ x hx => by rw [List.eq_of_mem_replicate hx]; omega)
     (List.replicate 16 0) (1 :: List.replicate 15 0) [0, 255, 7]
     (by decide) (by decide) (by decide) (by decide) (by decide)
     (by decide)⟩
